import Mathlib

/-!
The redigo script executor and lock primitive.

A shallow embedding of `redis/script.go` (the `Script` type with `NewScript`,
`args`, `Hash`, `Do`, `SendHash`, `Send`, `Load`) and of the lock helpers of
`redis/lock_test.go` (`unlockScript`, `tryLock`, `UnlockScript`), together with
a model of the remote key-value store the helpers talk to.

Conventions.
* Go `interface{}` request arguments are the type `Arg`; replies are the tagged
  union `Reply`; a Go `error` value is `Option GoError` (`none` is `nil`).
* A connection is a state-passing function: one call of `Conn.Do` maps the
  connection state and a request to a `(reply, error)` pair and the next state.
* Go strings are modelled by Lean strings (valid Unicode text); the prefix test
  on characters then agrees with the one on bytes.
* `log.Fatal` ends the process: a call that reaches it has the outcome `fatal`.
-/

namespace Redigo

/-! ## Values exchanged with the store -/

/-- One element of a Go `[]interface{}` request argument list. -/
inductive Arg where
  | str (s : String)
  | int (n : Int)
  | null
  deriving DecidableEq, Repr, Inhabited

/-- Modelled from the spec: the reply shapes of the store client (section 9:
integer, string, array, nil, error); the client's reply types are not part of
the two source files. -/
inductive Reply where
  | null
  | int (n : Int)
  | str (s : String)
  | array (items : List String)
  | error (text : String)
  deriving DecidableEq, Repr, Inhabited

/-- A non-nil Go `error` value. `Error` is the store client's `redis.Error`
string type, `ErrNil` the sentinel `redis.ErrNil`, and `other` stands for a
value of any other error type, carrying its text. -/
inductive GoError where
  | ErrNil
  | Error (text : String)
  | other (text : String)
  deriving DecidableEq, Repr, Inhabited

/-- The result pair `(interface{}, error)` of one request. -/
abbrev Result := Reply × Option GoError

/-- One request as handed to the connection: command name and arguments. -/
abbrev Request := String × List Arg

/-- A connection with state `σ`: the behaviour of `Conn.Do`. -/
abbrev Conn (σ : Type) := σ → String → List Arg → Result × σ

/-- Go `strings.HasPrefix s p`. -/
def HasPrefix (s p : String) : Bool := p.data.isPrefixOf s.data

/-! ## SHA-1 and hexadecimal encoding (Go `crypto/sha1`, `encoding/hex`) -/

/-- The 32-bit word modulus. -/
def w32 : Nat := 4294967296

/-- Rotate a 32-bit word left by `n` bits. -/
def rotl32 (x n : Nat) : Nat := ((x <<< n) ||| (x >>> (32 - n))) % w32

/-- Big-endian bytes of `x`, `n` of them. -/
def beBytes : Nat → Nat → List Nat
  | 0, _ => []
  | n + 1, x => (x >>> (8 * n)) % 256 :: beBytes n x

/-- Big-endian value of a byte list. -/
def beWord (bs : List Nat) : Nat := bs.foldl (fun acc b => acc * 256 + b) 0

/-- Message padding: a one bit, zeros up to 56 mod 64, then the bit length. -/
def sha1Pad (msg : List Nat) : List Nat :=
  let l := msg.length
  msg ++ [128] ++ List.replicate ((119 - l % 64) % 64) 0 ++ beBytes 8 ((8 * l) % 18446744073709551616)

/-- Split a list in chunks of `n` elements; `fuel` bounds the number of chunks. -/
def chunks (n : Nat) : Nat → List Nat → List (List Nat)
  | 0, _ => []
  | fuel + 1, xs => if xs.isEmpty then [] else xs.take n :: chunks n fuel (xs.drop n)

/-- Extend the 16 block words to the 80-word message schedule. -/
def sha1Schedule : Nat → List Nat → List Nat
  | 0, w => w
  | k + 1, w =>
    let t := w.length
    let x := w.getD (t - 3) 0 ^^^ w.getD (t - 8) 0 ^^^ w.getD (t - 14) 0 ^^^ w.getD (t - 16) 0
    sha1Schedule k (w ++ [rotl32 x 1])

/-- The five-word chaining state. -/
structure Sha1State where
  a : Nat
  b : Nat
  c : Nat
  d : Nat
  e : Nat
  deriving DecidableEq, Repr

/-- One of the 80 rounds. -/
def sha1Round (st : Sha1State) (t wt : Nat) : Sha1State :=
  let f :=
    if t < 20 then (st.b &&& st.c) ||| ((st.b ^^^ 4294967295) &&& st.d)
    else if t < 40 then st.b ^^^ st.c ^^^ st.d
    else if t < 60 then (st.b &&& st.c) ||| (st.b &&& st.d) ||| (st.c &&& st.d)
    else st.b ^^^ st.c ^^^ st.d
  let k :=
    if t < 20 then 1518500249
    else if t < 40 then 1859775393
    else if t < 60 then 2400959708
    else 3395469782
  let tmp := (rotl32 st.a 5 + f + st.e + k + wt) % w32
  { a := tmp, b := st.a, c := rotl32 st.b 30, d := st.c, e := st.d }

/-- Run the rounds over the schedule, counting `t` upwards. -/
def sha1Rounds : Sha1State → Nat → List Nat → Sha1State
  | st, _, [] => st
  | st, t, wt :: ws => sha1Rounds (sha1Round st t wt) (t + 1) ws

/-- Process one 64-byte block. -/
def sha1Block (h : Sha1State) (block : List Nat) : Sha1State :=
  let w := sha1Schedule 64 ((chunks 4 16 block).map beWord)
  let r := sha1Rounds h 0 w
  { a := (h.a + r.a) % w32, b := (h.b + r.b) % w32, c := (h.c + r.c) % w32,
    d := (h.d + r.d) % w32, e := (h.e + r.e) % w32 }

/-- The SHA-1 digest (20 bytes) of a byte list. -/
def sha1 (msg : List Nat) : List Nat :=
  let padded := sha1Pad msg
  let h0 : Sha1State :=
    { a := 1732584193, b := 4023233417, c := 2562383102, d := 271733878, e := 3285377520 }
  let h := (chunks 64 (padded.length / 64 + 1) padded).foldl sha1Block h0
  beBytes 4 h.a ++ beBytes 4 h.b ++ beBytes 4 h.c ++ beBytes 4 h.d ++ beBytes 4 h.e

/-- One lowercase hexadecimal digit. -/
def hexDigit (n : Nat) : Char := "0123456789abcdef".data.getD n '0'

/-- Go `hex.EncodeToString`. -/
def hexEncode (bs : List Nat) : String :=
  String.mk (bs.flatMap (fun b => [hexDigit (b / 16), hexDigit (b % 16)]))

/-- The bytes of a string (UTF-8), as `io.WriteString` feeds them to the hash. -/
def strBytes (s : String) : List Nat := s.toUTF8.data.toList.map UInt8.toNat

/-! ## `script.go` -/

/-- The Go struct `Script`. -/
structure Script where
  keyCount : Int
  src : String
  hash : String
  deriving DecidableEq, Repr

/-- Go `NewScript`. -/
def NewScript (keyCount : Int) (src : String) : Script :=
  { keyCount := keyCount, src := src, hash := hexEncode (sha1 (strBytes src)) }

/-- Go builtin `copy(dst, src)`: overwrite the front of `dst` with `src`, as
many elements as both hold. -/
def copy {α : Type} (dst src : List α) : List α :=
  src.take dst.length ++ dst.drop src.length

/-- Go `make([]interface{}, n)`: `n` nil elements. -/
def makeArgs (n : Nat) : List Arg := List.replicate n Arg.null

/-- Go `(*Script).args`. -/
def Script.args (s : Script) (spec : String) (keysAndArgs : List Arg) : List Arg :=
  if s.keyCount < 0 then
    let args := makeArgs (1 + keysAndArgs.length)
    let args := args.set 0 (Arg.str spec)
    args.take 1 ++ copy (args.drop 1) keysAndArgs
  else
    let args := makeArgs (2 + keysAndArgs.length)
    let args := args.set 0 (Arg.str spec)
    let args := args.set 1 (Arg.int s.keyCount)
    args.take 2 ++ copy (args.drop 2) keysAndArgs

/-- Go `(*Script).Hash`. -/
def Script.Hash (s : Script) : String := s.hash

/-- The test of the `if` in `Do`: `err.(Error)` succeeds and the text has the
prefix `"NOSCRIPT "`. -/
def isNoScript : Option GoError → Bool
  | some (GoError.Error e) => HasPrefix e "NOSCRIPT "
  | _ => false

/-- Go `(*Script).Do`. -/
def Script.Do {σ : Type} (s : Script) (c : Conn σ) (st : σ) (keysAndArgs : List Arg) :
    Result × σ :=
  let r := c st "EVALSHA" (s.args s.hash keysAndArgs)
  if isNoScript r.1.2 then
    c r.2 "EVAL" (s.args s.src keysAndArgs)
  else
    r

/-- The behaviour of `Conn.Send`: the request is written to the output buffer
and only an error comes back. -/
abbrev Sender (σ : Type) := σ → String → List Arg → Option GoError × σ

/-- Go `(*Script).SendHash`. -/
def Script.SendHash {σ : Type} (s : Script) (send : Sender σ) (st : σ)
    (keysAndArgs : List Arg) : Option GoError × σ :=
  send st "EVALSHA" (s.args s.hash keysAndArgs)

/-- Go `(*Script).Send`. -/
def Script.Send {σ : Type} (s : Script) (send : Sender σ) (st : σ)
    (keysAndArgs : List Arg) : Option GoError × σ :=
  send st "EVAL" (s.args s.src keysAndArgs)

/-- Go `(*Script).Load`. -/
def Script.Load {σ : Type} (s : Script) (c : Conn σ) (st : σ) : Option GoError × σ :=
  let r := c st "SCRIPT" [Arg.str "LOAD", Arg.str s.src]
  (r.1.2, r.2)

/-- A connection that also records every request it is handed, in order. -/
def recording {σ : Type} (c : Conn σ) : Conn (σ × List Request) :=
  fun st cmd args =>
    let r := c st.1 cmd args
    (r.1, (r.2, st.2 ++ [(cmd, args)]))

/-! ## `lock_test.go`: the lock helpers -/

/-- How a call ends: it returns a value to its caller, or it ends the process
(`log.Fatal` prints its argument and calls `os.Exit(1)`). -/
inductive Outcome (α : Type) where
  | returned (a : α)
  | fatal (msg : String)
  deriving DecidableEq, Repr

/-- The text of an error value, `err.Error()`. -/
def GoError.text : GoError → String
  | GoError.ErrNil => "redigo: nil returned"
  | GoError.Error t => t
  | GoError.other t => t

/-- Modelled from the spec: the client helper `redis.String` (with the sentinel
`redis.ErrNil`), which is not part of the two source files. A request error is
handed on; a string reply is the value; a nil reply is the distinguishable
"already exists" outcome `ErrNil` (section 6); an error reply is that error; any
other shape is an error. -/
def redisString : Result → String × Option GoError
  | (_, some e) => ("", some e)
  | (Reply.str s, none) => (s, none)
  | (Reply.null, none) => ("", some GoError.ErrNil)
  | (Reply.error t, none) => ("", some (GoError.Error t))
  | (_, none) => ("", some (GoError.other "redigo: unexpected type for String"))

/-- The request `tryLock` sends: `SET key value EX 30 NX`. -/
def lockRequest (key value : String) : Request :=
  ("SET", [Arg.str key, Arg.str value, Arg.str "EX", Arg.int 30, Arg.str "NX"])

/-- Go `tryLock`. -/
def tryLock {σ : Type} (c : Conn σ) (st : σ) (key value : String) :
    (Bool × Option GoError) × σ :=
  let r := c st "SET" [Arg.str key, Arg.str value, Arg.str "EX", Arg.int 30, Arg.str "NX"]
  let err := (redisString r.1).2
  if err = some GoError.ErrNil then
    ((false, none), r.2)
  else if err ≠ none then
    ((false, err), r.2)
  else
    ((true, none), r.2)

/-- The Lua source text of `unlockScript`. -/
def unlockSrc : String :=
  "\n\tlocal key     = KEYS[1]\n\tlocal content = KEYS[2]\n\tlocal value = redis.call(\x27get\x27, key)\n\tif value == content then\n\t    return redis.call(\x27del\x27, key);\n\tend\n\treturn 0\n"

/-- Go `unlockScript = redis.NewScript(2, ...)`. -/
def unlockScript : Script := NewScript 2 unlockSrc

/-- Go `UnlockScript`. The two `log.Printf` lines only write to the log. -/
def UnlockScript {σ : Type} (c : Conn σ) (st : σ) (key value : String) :
    Outcome (Bool × Option GoError) × σ :=
  let r := unlockScript.Do c st [Arg.str key, Arg.str value]
  match r.1.2 with
  | some e => (Outcome.fatal e.text, r.2)
  | none =>
    match r.1.1 with
    | Reply.int result => (Outcome.returned (result == 1, none), r.2)
    | _ => (Outcome.fatal "not int64", r.2)

/-! ## The remote store -/

/-- A stored string value with its remaining time to live in seconds, if any. -/
structure Entry where
  val : String
  ttl : Option Nat
  deriving DecidableEq, Repr

/-- The key space: an association list, first match wins. -/
abbrev KV := List (String × Entry)

/-- Store command `GET`: the entry under a key. -/
def KV.get (kv : KV) (k : String) : Option Entry := kv.lookup k

/-- Store command `DEL` of one key: the key space without it, and the number of
keys removed. -/
def KV.del (kv : KV) (k : String) : KV × Int :=
  (kv.filter (fun p => p.1 != k), if (kv.get k).isSome then 1 else 0)

/-- A Lua value, as far as the unlock script handles them. -/
inductive LuaVal where
  | nil
  | false
  | str (s : String)
  | num (n : Int)
  deriving DecidableEq, Repr

/-- Lua table indexing `t[i]` (1-based); a missing element is `nil`. -/
def luaIndex (t : List String) (i : Nat) : LuaVal :=
  match t.get? (i - 1) with
  | some s => if i = 0 then LuaVal.nil else LuaVal.str s
  | none => LuaVal.nil

/-- The unlock script, read from its Lua text: `redis.call('get', key)` is the
stored string, or `false` for a missing key; `==` compares without coercion;
`redis.call('del', key)` is the number of keys removed, and a Lua number is
replied as an integer. A `redis.call` with a non-string argument raises. -/
def unlockLua (KEYS _ARGV : List String) (kv : KV) : Reply × KV :=
  let key := luaIndex KEYS 1
  let content := luaIndex KEYS 2
  match key with
  | LuaVal.str k =>
    let value := match kv.get k with
      | some e => LuaVal.str e.val
      | none => LuaVal.false
    if value = content then
      (Reply.int (kv.del k).2, (kv.del k).1)
    else
      (Reply.int 0, kv)
  | _ => (Reply.error "ERR Lua redis() command arguments must be strings or integers", kv)

/-- What the store does with a script source: from the keys, the further
arguments and the key space to a reply and the next key space, in one step. -/
abbrev Interp := String → List String → List String → KV → Reply × KV

/-- An interpreter that knows the unlock script and rejects every other text. -/
def lockInterp : Interp := fun src keys argv kv =>
  if src = unlockSrc then unlockLua keys argv kv
  else (Reply.error "ERR Error compiling script", kv)

/-- Modelled from the spec: the remote store (sections 4 and 6), which is an
external collaborator: a key space and a script cache from hash to source. -/
structure Store where
  kv : KV
  scripts : List (String × String)
  deriving DecidableEq, Repr

/-- An argument as the store receives it. -/
def Arg.wire : Arg → String
  | Arg.str s => s
  | Arg.int n => toString n
  | Arg.null => ""

/-- An argument read as an integer. -/
def Arg.toInt? : Arg → Option Int
  | Arg.str s => s.toInt?
  | Arg.int n => some n
  | Arg.null => none

/-- Options of `SET` after key and value: `EX seconds` and `NX`. -/
def parseSetOpts : List Arg → Option (Option Nat × Bool)
  | [] => some (none, false)
  | Arg.str "NX" :: rest => (parseSetOpts rest).map (fun o => (o.1, true))
  | Arg.str "EX" :: n :: rest =>
    match n.toInt? with
    | some secs => if 0 < secs then (parseSetOpts rest).map (fun o => (some secs.toNat, o.2)) else none
    | none => none
  | _ => none

/-- Modelled from the spec: the conditional write (section 6, ConditionalSet):
with `NX` an existing key is left alone and the reply is nil. -/
def Store.set (st : Store) (k v : String) (ttl : Option Nat) (nx : Bool) : Reply × Store :=
  if nx && (st.kv.get k).isSome then
    (Reply.null, st)
  else
    (Reply.str "OK", { st with kv := (k, { val := v, ttl := ttl }) :: (st.kv.del k).1 })

/-- The numkeys argument and what follows it, split in keys and arguments. -/
def evalArgs : List Arg → Except String (List String × List String)
  | [] => Except.error "ERR wrong number of arguments"
  | nk :: rest =>
    match nk.toInt? with
    | none => Except.error "ERR value is not an integer or out of range"
    | some n =>
      if n < 0 then Except.error "ERR Number of keys can\x27t be negative"
      else if rest.length < n.toNat then
        Except.error "ERR Number of keys can\x27t be greater than number of args"
      else Except.ok ((rest.take n.toNat).map Arg.wire, (rest.drop n.toNat).map Arg.wire)

/-- Run a script source atomically on the key space. -/
def Store.run (interp : Interp) (st : Store) (src : String) (rest : List Arg) : Reply × Store :=
  match evalArgs rest with
  | Except.error e => (Reply.error e, st)
  | Except.ok ka =>
    let r := interp src ka.1 ka.2 st.kv
    (r.1, { st with kv := r.2 })

/-- Put a source in the script cache under its SHA-1, unless the hash is there. -/
def Store.cache (st : Store) (src : String) : Store :=
  let h := hexEncode (sha1 (strBytes src))
  if (st.scripts.lookup h).isSome then st else { st with scripts := (h, src) :: st.scripts }

/-- Modelled from the spec: the store serving one request (section 6, Execute):
`EVALSHA` of an uncached hash fails with the "script not cached" error kind,
`EVAL` caches the source and runs it, `SCRIPT LOAD` caches without running. -/
def Store.exec (interp : Interp) (st : Store) (cmd : String) (args : List Arg) : Reply × Store :=
  if cmd = "SET" then
    match args with
    | k :: v :: opts =>
      match parseSetOpts opts with
      | some o => st.set k.wire v.wire o.1 o.2
      | none => (Reply.error "ERR syntax error", st)
    | _ => (Reply.error "ERR wrong number of arguments", st)
  else if cmd = "EVALSHA" then
    match args with
    | h :: rest =>
      match st.scripts.lookup h.wire with
      | some src => st.run interp src rest
      | none => (Reply.error "NOSCRIPT No matching script. Please use EVAL.", st)
    | [] => (Reply.error "ERR wrong number of arguments", st)
  else if cmd = "EVAL" then
    match args with
    | src :: rest =>
      match evalArgs rest with
      | Except.error e => (Reply.error e, st)
      | Except.ok _ => (st.cache src.wire).run interp src.wire rest
    | [] => (Reply.error "ERR wrong number of arguments", st)
  else if cmd = "SCRIPT" then
    match args with
    | [Arg.str "LOAD", src] =>
      (Reply.str (hexEncode (sha1 (strBytes src.wire))), st.cache src.wire)
    | _ => (Reply.error "ERR unknown subcommand", st)
  else
    (Reply.error "ERR unknown command", st)

/-- A connection to the store: an error reply comes back as a `redis.Error`
value with a nil reply, every other reply with a nil error. -/
def storeConn (interp : Interp) : Conn Store := fun st cmd args =>
  match st.exec interp cmd args with
  | (Reply.error t, st1) => ((Reply.null, some (GoError.Error t)), st1)
  | (r, st1) => ((r, none), st1)

/-! ## Concrete connections and inputs used in examples -/

/-- A script value with a positive key count. -/
def demoScript : Script :=
  { keyCount := 1, src := "return 1", hash := "e0e1f9fabfc9d4800c877a703b823ac0578ff8db" }

/-- A connection whose script cache is empty: `EVALSHA` fails with the cache-miss
error, every other request replies the integer 1. The state counts requests. -/
def missConn : Conn Nat := fun n cmd _ =>
  if cmd = "EVALSHA" then
    ((Reply.null, some (GoError.Error "NOSCRIPT No matching script. Please use EVAL.")), n + 1)
  else
    ((Reply.int 1, none), n + 1)

/-- A connection that answers every request with the cache-miss error. -/
def alwaysMissConn : Conn Unit := fun _ _ _ =>
  ((Reply.null, some (GoError.Error "NOSCRIPT No matching script. Please use EVAL.")), ())

/-- A connection failing with an error of another type that carries the
cache-miss text. -/
def otherTypeConn : Conn Unit := fun _ _ _ =>
  ((Reply.null, some (GoError.other "NOSCRIPT No matching script. Please use EVAL.")), ())

/-- A connection failing with the store error `NOSCRIPT`, no trailing space. -/
def bareConn : Conn Unit := fun _ _ _ =>
  ((Reply.null, some (GoError.Error "NOSCRIPT")), ())

/-- A connection whose every request fails in transport. -/
def downConn : Conn Unit := fun _ _ _ =>
  ((Reply.null, some (GoError.other "write tcp 127.0.0.1:6379: broken pipe")), ())

/-- A connection that replies the string `OK` to every request. -/
def okConn : Conn Unit := fun _ _ _ => ((Reply.str "OK", none), ())

/-! ## Runs of the lock helpers -/

/-- The script cached under the hash of the unlock script, if there is one, is
the unlock script. -/
def CacheOk (st : Store) : Prop :=
  ∀ src, st.scripts.lookup unlockScript.hash = some src → src = unlockSrc

/-- A sequence of `tryLock` calls on one name, one per owner token, each on the
state the previous one left; the results in order and the final state. -/
def tryLockAll {σ : Type} (c : Conn σ) (st : σ) (key : String) :
    List String → List (Bool × Option GoError) × σ
  | [] => ([], st)
  | v :: vs =>
    let r := tryLock c st key v
    let rs := tryLockAll c r.2 key vs
    (r.1 :: rs.1, rs.2)

/-- The number of calls in a run that returned `acquired = true`. -/
def acquiredCount (rs : List (Bool × Option GoError)) : Nat :=
  (rs.filter (fun r => r.1)).length

/-- The five calls of the lock/unlock scenario, in sequence on one connection. -/
def lockScenario {σ : Type} (c : Conn σ) (st : σ) (name v1 v2 : String) :
    (Bool × Option GoError) × (Bool × Option GoError) × Outcome (Bool × Option GoError)
      × Outcome (Bool × Option GoError) × (Bool × Option GoError) :=
  let r1 := tryLock c st name v1
  let r2 := tryLock c r1.2 name v2
  let r3 := UnlockScript c r2.2 name v2
  let r4 := UnlockScript c r3.2 name v1
  let r5 := tryLock c r4.2 name v2
  (r1.1, r2.1, r3.1, r4.1, r5.1)

/-- A store with nothing in it. -/
def emptyStore : Store := { kv := [], scripts := [] }

/-- A store in which `lk` is held by `v1`, next to an unrelated key. -/
def heldStore : Store :=
  { kv := [("lk", { val := "v1", ttl := some 30 }), ("cfg", { val := "x", ttl := none })],
    scripts := [] }

/-! ## Further runs and store properties -/

/-- A sender that also records every request it is handed, in order. -/
def recordingSend {σ : Type} (send : Sender σ) : Sender (σ × List Request) :=
  fun st cmd args =>
    let r := send st.1 cmd args
    (r.1, (r.2, st.2 ++ [(cmd, args)]))

/-- The store keeps the cache-miss error kind for an uncached hash: no script
evaluates to an error reply whose text starts with `"NOSCRIPT "`. -/
def NoFakeMiss (interp : Interp) : Prop :=
  ∀ src keys argv kv t, (interp src keys argv kv).1 = Reply.error t →
    HasPrefix t "NOSCRIPT " = false

/-- A sequence of `tryLock` calls, each with its own name and owner token, each
on the state the previous one left; the final state. -/
def tryLockSeq {σ : Type} (c : Conn σ) (st : σ) : List (String × String) → σ
  | [] => st
  | p :: ps => tryLockSeq c (tryLock c st p.1 p.2).2 ps

/-- No entry of the key space is without an expiry. -/
def Leased (kv : KV) : Prop := ∀ k e, kv.get k = some e → e.ttl.isSome = true

/-- A script text that replies an error of the cache-miss kind of its own. -/
def fakeMissSrc : String := "return redis.error_reply(\x27NOSCRIPT fake\x27)"

/-- An interpreter that evaluates `fakeMissSrc` to the error reply it returns
and every other text to nil. -/
def fakeMissInterp : Interp := fun src _ _ kv =>
  if src = fakeMissSrc then (Reply.error "NOSCRIPT fake", kv) else (Reply.null, kv)

/-! ## Lemmas on the script executor -/

theorem copy_replicate {α : Type} (x : α) (xs : List α) :
    copy (List.replicate xs.length x) xs = xs := by
  simp [copy]

theorem args_neg (s : Script) (spec : String) (ka : List Arg) (h : s.keyCount < 0) :
    s.args spec ka = Arg.str spec :: ka := by
  have h1 : 1 + ka.length = ka.length + 1 := Nat.add_comm _ _
  simp [Script.args, h, makeArgs, h1, List.replicate_succ, copy_replicate]

theorem args_nonneg (s : Script) (spec : String) (ka : List Arg) (h : 0 ≤ s.keyCount) :
    s.args spec ka = Arg.str spec :: Arg.int s.keyCount :: ka := by
  have h1 : 2 + ka.length = ka.length + 1 + 1 := by omega
  have h2 : ¬ s.keyCount < 0 := by omega
  simp [Script.args, h2, makeArgs, h1, List.replicate_succ, copy_replicate]

theorem args_head (s : Script) (spec : String) (ka : List Arg) :
    (s.args spec ka).head? = some (Arg.str spec) := by
  by_cases h : s.keyCount < 0
  · simp [args_neg s spec ka h]
  · simp [args_nonneg s spec ka (by omega)]

theorem args_tail (s : Script) (spec spec2 : String) (ka : List Arg) :
    (s.args spec ka).tail = (s.args spec2 ka).tail := by
  by_cases h : s.keyCount < 0
  · simp [args_neg s _ ka h]
  · simp [args_nonneg s _ ka (by omega)]

/-! ## Lemmas on the key space -/

theorem lookup_filter_self {β : Type} (kv : List (String × β)) (k : String) :
    (kv.filter (fun p => p.1 != k)).lookup k = none := by
  induction kv with
  | nil => rfl
  | cons p t ih =>
    obtain ⟨a, b⟩ := p
    by_cases h : a = k
    · simp [List.filter_cons, h, ih]
    · have h2 : (k == a) = false := by simpa using fun h3 => h h3.symm
      simp [List.filter_cons, h, List.lookup_cons, ih, h2]

theorem lookup_filter_other {β : Type} (kv : List (String × β)) (k k2 : String)
    (hne : k2 ≠ k) : (kv.filter (fun p => p.1 != k)).lookup k2 = kv.lookup k2 := by
  induction kv with
  | nil => rfl
  | cons p t ih =>
    obtain ⟨a, b⟩ := p
    by_cases h : a = k
    · subst h
      have h2 : (k2 == a) = false := by simpa using hne
      simp [List.filter_cons, ih, List.lookup_cons, h2]
    · by_cases h3 : k2 = a
      · simp [List.filter_cons, h, ih, List.lookup_cons, h3]
      · have h2 : (k2 == a) = false := by simpa using h3
        simp [List.filter_cons, h, ih, List.lookup_cons, h2]

theorem get_del_self (kv : KV) (k : String) : (kv.del k).1.get k = none := by
  simp [KV.del, KV.get, lookup_filter_self]

theorem get_del_other (kv : KV) (k k2 : String) (hne : k2 ≠ k) :
    (kv.del k).1.get k2 = kv.get k2 := by
  simp [KV.del, KV.get, lookup_filter_other _ _ _ hne]

theorem get_cons_self (kv : KV) (k : String) (e : Entry) : KV.get ((k, e) :: kv) k = some e := by
  simp [KV.get, List.lookup_cons]

theorem get_cons_other (kv : KV) (k k2 : String) (e : Entry) (hne : k2 ≠ k) :
    KV.get ((k, e) :: kv) k2 = kv.get k2 := by
  have h2 : (k2 == k) = false := by simpa using hne
  simp [KV.get, List.lookup_cons, h2]

/-! ## Lemmas on the store -/

theorem unlockLua_pair (key value : String) (argv : List String) (kv : KV) :
    unlockLua [key, value] argv kv =
      if (kv.get key).map Entry.val = some value then (Reply.int 1, (kv.del key).1)
      else (Reply.int 0, kv) := by
  cases h : kv.get key with
  | none => simp [unlockLua, luaIndex, h]
  | some e =>
    by_cases hv : e.val = value
    · simp [unlockLua, luaIndex, h, hv, KV.del]
    · simp [unlockLua, luaIndex, h, hv]

theorem unlock_args (spec key value : String) :
    unlockScript.args spec [Arg.str key, Arg.str value] =
      [Arg.str spec, Arg.int 2, Arg.str key, Arg.str value] :=
  args_nonneg unlockScript spec _ (by decide)

theorem evalArgs_pair (key value : String) :
    evalArgs [Arg.int 2, Arg.str key, Arg.str value] = Except.ok ([key, value], []) := by
  simp [evalArgs, Arg.toInt?, Arg.wire]

theorem exec_evalsha (interp : Interp) (st : Store) (h : String) (rest : List Arg) :
    st.exec interp "EVALSHA" (Arg.str h :: rest) =
      match st.scripts.lookup h with
      | some src => st.run interp src rest
      | none => (Reply.error "NOSCRIPT No matching script. Please use EVAL.", st) := by
  simp [Store.exec, Arg.wire]

theorem exec_eval (interp : Interp) (st : Store) (src : String) (rest : List Arg)
    (ka : List String × List String) (h : evalArgs rest = Except.ok ka) :
    st.exec interp "EVAL" (Arg.str src :: rest) = (st.cache src).run interp src rest := by
  simp [Store.exec, Arg.wire, h]

theorem exec_set_nx (interp : Interp) (st : Store) (k v : String) :
    st.exec interp "SET" [Arg.str k, Arg.str v, Arg.str "EX", Arg.int 30, Arg.str "NX"] =
      st.set k v (some 30) true := by
  simp [Store.exec, parseSetOpts, Arg.wire, Arg.toInt?]

theorem tryLock_store_held (interp : Interp) (st : Store) (key value : String)
    (h : (st.kv.get key).isSome = true) :
    tryLock (storeConn interp) st key value = ((false, none), st) := by
  simp [tryLock, storeConn, exec_set_nx, Store.set, h, redisString]

theorem tryLock_store_free (interp : Interp) (st : Store) (key value : String)
    (h : st.kv.get key = none) :
    tryLock (storeConn interp) st key value =
      ((true, none),
       { st with kv := (key, { val := value, ttl := some 30 }) :: (st.kv.del key).1 }) := by
  simp [tryLock, storeConn, exec_set_nx, Store.set, h, redisString]

theorem run_unlock (interp : Interp) (hlua : interp unlockSrc = unlockLua) (st : Store)
    (key value : String) :
    st.run interp unlockSrc [Arg.int 2, Arg.str key, Arg.str value] =
      if (st.kv.get key).map Entry.val = some value then
        (Reply.int 1, { st with kv := (st.kv.del key).1 })
      else (Reply.int 0, st) := by
  simp only [Store.run, evalArgs_pair, hlua, unlockLua_pair]
  split <;> rfl

theorem cache_kv (st : Store) (src : String) : (st.cache src).kv = st.kv := by
  simp only [Store.cache]
  split <;> rfl

theorem cache_unlock_ok (st : Store) (hc : CacheOk st) : CacheOk (st.cache unlockSrc) := by
  have hh : hexEncode (sha1 (strBytes unlockSrc)) = unlockScript.hash := rfl
  simp only [Store.cache, hh]
  split
  · exact hc
  · intro src hsrc
    simp [List.lookup_cons] at hsrc
    exact hsrc.symm

/-- The unlock script run by `Script.Do` against the store: the reply, the key
space afterwards, and the script cache invariant. -/
theorem unlock_Do_store (interp : Interp) (hlua : interp unlockSrc = unlockLua) (st : Store)
    (hc : CacheOk st) (key value : String) :
    (unlockScript.Do (storeConn interp) st [Arg.str key, Arg.str value]).1 =
        (Reply.int (if (st.kv.get key).map Entry.val = some value then 1 else 0), none)
      ∧ (unlockScript.Do (storeConn interp) st [Arg.str key, Arg.str value]).2.kv =
        (if (st.kv.get key).map Entry.val = some value then (st.kv.del key).1 else st.kv)
      ∧ CacheOk (unlockScript.Do (storeConn interp) st [Arg.str key, Arg.str value]).2 := by
  have hsrc : unlockScript.src = unlockSrc := rfl
  unfold Script.Do
  simp only [unlock_args, hsrc]
  cases hl : st.scripts.lookup unlockScript.hash with
  | some src =>
    have hs : src = unlockSrc := hc src hl
    subst hs
    have h1 : storeConn interp st "EVALSHA"
        [Arg.str unlockScript.hash, Arg.int 2, Arg.str key, Arg.str value] =
        if (st.kv.get key).map Entry.val = some value then
          ((Reply.int 1, none), { st with kv := (st.kv.del key).1 })
        else ((Reply.int 0, none), st) := by
      by_cases hv : (st.kv.get key).map Entry.val = some value <;>
        simp [storeConn, exec_evalsha, hl, run_unlock interp hlua, hv]
    rw [h1]
    by_cases hv : (st.kv.get key).map Entry.val = some value
    · simp only [hv, if_true]
      refine ⟨by simp [isNoScript], by simp [isNoScript], ?_⟩
      simpa [isNoScript, CacheOk] using hc
    · simp only [hv, if_false]
      refine ⟨by simp [isNoScript], by simp [isNoScript], ?_⟩
      simpa [isNoScript, CacheOk] using hc
  | none =>
    have h1 : storeConn interp st "EVALSHA"
        [Arg.str unlockScript.hash, Arg.int 2, Arg.str key, Arg.str value] =
        ((Reply.null, some (GoError.Error "NOSCRIPT No matching script. Please use EVAL.")),
          st) := by
      simp only [storeConn, exec_evalsha, hl]
    have hmiss : isNoScript
        (some (GoError.Error "NOSCRIPT No matching script. Please use EVAL.")) = true := by
      decide
    have h2 : storeConn interp st "EVAL"
        [Arg.str unlockSrc, Arg.int 2, Arg.str key, Arg.str value] =
        if (st.kv.get key).map Entry.val = some value then
          ((Reply.int 1, none), { st.cache unlockSrc with kv := (st.kv.del key).1 })
        else ((Reply.int 0, none), st.cache unlockSrc) := by
      by_cases hv : (st.kv.get key).map Entry.val = some value <;>
        simp [storeConn, exec_eval interp st unlockSrc _ _ (evalArgs_pair key value),
          run_unlock interp hlua, cache_kv, hv]
    rw [h1]
    simp only [hmiss, if_true, h2]
    have hc2 := cache_unlock_ok st hc
    by_cases hv : (st.kv.get key).map Entry.val = some value
    · simp only [hv, if_true]
      refine ⟨trivial, trivial, ?_⟩
      simpa [CacheOk] using hc2
    · simp only [hv, if_false]
      refine ⟨trivial, ?_, hc2⟩
      exact cache_kv st unlockSrc

/-- `UnlockScript` against the store: what it returns and the state it leaves. -/
theorem UnlockScript_store (interp : Interp) (hlua : interp unlockSrc = unlockLua)
    (st : Store) (hc : CacheOk st) (key value : String) :
    (UnlockScript (storeConn interp) st key value).1 =
        Outcome.returned (decide ((st.kv.get key).map Entry.val = some value), none)
      ∧ (UnlockScript (storeConn interp) st key value).2.kv =
        (if (st.kv.get key).map Entry.val = some value then (st.kv.del key).1 else st.kv)
      ∧ CacheOk (UnlockScript (storeConn interp) st key value).2 := by
  obtain ⟨h1, h2, h3⟩ := unlock_Do_store interp hlua st hc key value
  generalize hr : unlockScript.Do (storeConn interp) st [Arg.str key, Arg.str value] = r at h1 h2 h3
  obtain ⟨⟨reply, err⟩, st1⟩ := r
  simp only [Prod.mk.injEq] at h1
  obtain ⟨hreply, herr⟩ := h1
  subst hreply herr
  refine ⟨?_, ?_, ?_⟩
  · by_cases hv : (st.kv.get key).map Entry.val = some value <;> simp [UnlockScript, hr, hv]
  · simpa [UnlockScript, hr] using h2
  · simpa [UnlockScript, hr] using h3

theorem lockInterp_unlock : lockInterp unlockSrc = unlockLua := by
  funext keys argv kv
  simp [lockInterp]

theorem acquiredCount_all_false (vs : List String) :
    acquiredCount (vs.map (fun _ => ((false, none) : Bool × Option GoError))) = 0 := by
  induction vs with
  | nil => rfl
  | cons v vs ih => simp [acquiredCount]

theorem tryLockAll_held (interp : Interp) (st : Store) (key : String) (owners : List String)
    (h : (st.kv.get key).isSome = true) :
    tryLockAll (storeConn interp) st key owners =
      (owners.map (fun _ => (false, none)), st) := by
  induction owners with
  | nil => rfl
  | cons v vs ih => simp [tryLockAll, tryLock_store_held interp st key v h, ih]

theorem tryLockAll_free (interp : Interp) (st : Store) (key v : String) (vs : List String)
    (h : st.kv.get key = none) :
    tryLockAll (storeConn interp) st key (v :: vs) =
      ((true, none) :: vs.map (fun _ => (false, none)),
       { st with kv := (key, { val := v, ttl := some 30 }) :: (st.kv.del key).1 }) := by
  have hheld : (KV.get ({ st with kv := (key, { val := v, ttl := some 30 }) ::
      (st.kv.del key).1 } : Store).kv key).isSome = true := by
    simp [get_cons_self]
  simp only [tryLockAll, tryLock_store_free interp st key v h]
  rw [tryLockAll_held interp _ key vs hheld]

/-! ## Claims on the script executor -/

/-- C1. Cache-miss fallback of `Script.Do`: when the `EVALSHA` request fails with
a store `Error` whose text starts with `"NOSCRIPT "`, `Do` issues exactly one
further request, `EVAL` with `args(src, ka)`, which has the arguments of the
first request except for the first one (source instead of hash), and `Do`
returns exactly the result pair of that second request. -/
theorem Do_cache_miss_fallback {σ : Type} (s : Script) (c : Conn σ) (st : σ)
    (ka : List Arg) (log : List Request) (e : String)
    (herr : (c st "EVALSHA" (s.args s.hash ka)).1.2 = some (GoError.Error e))
    (hpre : HasPrefix e "NOSCRIPT " = true) :
    s.Do (recording c) (st, log) ka =
        ((c (c st "EVALSHA" (s.args s.hash ka)).2 "EVAL" (s.args s.src ka)).1,
         ((c (c st "EVALSHA" (s.args s.hash ka)).2 "EVAL" (s.args s.src ka)).2,
          log ++ [("EVALSHA", s.args s.hash ka), ("EVAL", s.args s.src ka)]))
      ∧ s.Do c st ka = c (c st "EVALSHA" (s.args s.hash ka)).2 "EVAL" (s.args s.src ka)
      ∧ (s.args s.hash ka).head? = some (Arg.str s.hash)
      ∧ (s.args s.src ka).head? = some (Arg.str s.src)
      ∧ (s.args s.src ka).tail = (s.args s.hash ka).tail := by
  have hmiss : isNoScript (c st "EVALSHA" (s.args s.hash ka)).1.2 = true := by
    rw [herr]; exact hpre
  refine ⟨?_, ?_, args_head _ _ _, args_head _ _ _, args_tail _ _ _ _⟩
  · simp [Script.Do, recording, hmiss]
  · simp [Script.Do, hmiss]

/-- The fallback on a connection with an empty script cache: two requests, and
the reply of the second. -/
theorem Do_cache_miss_fallback_witness :
    demoScript.Do (recording missConn) (0, []) [Arg.str "k", Arg.int 7] =
      ((Reply.int 1, none),
       (2, [("EVALSHA", [Arg.str "e0e1f9fabfc9d4800c877a703b823ac0578ff8db", Arg.int 1,
              Arg.str "k", Arg.int 7]),
            ("EVAL", [Arg.str "return 1", Arg.int 1, Arg.str "k", Arg.int 7])])) := by
  have h := (Do_cache_miss_fallback demoScript missConn 0 [Arg.str "k", Arg.int 7] []
    "NOSCRIPT No matching script. Please use EVAL." (by simp [missConn]) (by decide)).1
  rw [h]
  simp [missConn, demoScript, args_nonneg]

/-- C2. `Script.Do` hands on everything but the cache miss: when the `EVALSHA`
request succeeds, or fails with an error that is not a store `Error` whose text
starts with `"NOSCRIPT "`, `Do` issues that one request only (no `EVAL`) and
returns exactly its result pair. -/
theorem Do_propagates_other {σ : Type} (s : Script) (c : Conn σ) (st : σ)
    (ka : List Arg) (log : List Request)
    (hother : ∀ e, (c st "EVALSHA" (s.args s.hash ka)).1.2 = some (GoError.Error e) →
      HasPrefix e "NOSCRIPT " = false) :
    s.Do (recording c) (st, log) ka =
        ((c st "EVALSHA" (s.args s.hash ka)).1,
         ((c st "EVALSHA" (s.args s.hash ka)).2, log ++ [("EVALSHA", s.args s.hash ka)]))
      ∧ s.Do c st ka = c st "EVALSHA" (s.args s.hash ka) := by
  have hmiss : isNoScript (c st "EVALSHA" (s.args s.hash ka)).1.2 = false := by
    cases hr : (c st "EVALSHA" (s.args s.hash ka)).1.2 with
    | none => rfl
    | some err =>
      cases err with
      | ErrNil => rfl
      | Error e => exact hother e hr
      | other t => rfl
  constructor
  · simp [Script.Do, recording, hmiss]
  · simp [Script.Do, hmiss]

/-- An error of another type with the cache-miss text, the store error
`NOSCRIPT` without the space, and a success: one request each. -/
theorem Do_propagates_other_witness :
    (demoScript.Do (recording otherTypeConn) ((), []) [Arg.str "k"] =
        ((Reply.null, some (GoError.other "NOSCRIPT No matching script. Please use EVAL.")),
         ((), [("EVALSHA", demoScript.args demoScript.hash [Arg.str "k"])])))
      ∧ (demoScript.Do (recording bareConn) ((), []) [Arg.str "k"] =
        ((Reply.null, some (GoError.Error "NOSCRIPT")),
         ((), [("EVALSHA", demoScript.args demoScript.hash [Arg.str "k"])])))
      ∧ (demoScript.Do (recording okConn) ((), []) [Arg.str "k"] =
        ((Reply.str "OK", none),
         ((), [("EVALSHA", demoScript.args demoScript.hash [Arg.str "k"])]))) :=
  ⟨(Do_propagates_other demoScript otherTypeConn () [Arg.str "k"] []
      (by simp [otherTypeConn])).1,
   (Do_propagates_other demoScript bareConn () [Arg.str "k"] []
      (by intro e h; simp [bareConn] at h; subst h; decide)).1,
   (Do_propagates_other demoScript okConn () [Arg.str "k"] []
      (by simp [okConn])).1⟩

/-- C5. Argument marshaling: `args(spec, ka)` is `[spec, k] ++ ka` (length
`len + 2`) when the key count `k` is non-negative and `[spec] ++ ka` (length
`len + 1`) when it is negative; the elements of `ka` follow unchanged and in
order, and for a negative count the element right after `spec` is the first
element of `ka`. -/
theorem args_marshaling (s : Script) (spec : String) (ka : List Arg) :
    (0 ≤ s.keyCount →
        s.args spec ka = [Arg.str spec, Arg.int s.keyCount] ++ ka
          ∧ (s.args spec ka).length = ka.length + 2
          ∧ ∀ i, (s.args spec ka).get? (i + 2) = ka.get? i)
      ∧ (s.keyCount < 0 →
        s.args spec ka = [Arg.str spec] ++ ka
          ∧ (s.args spec ka).length = ka.length + 1
          ∧ (∀ i, (s.args spec ka).get? (i + 1) = ka.get? i)
          ∧ (s.args spec ka).get? 1 = ka.head?) := by
  constructor
  · intro h
    rw [args_nonneg s spec ka h]
    simp
  · intro h
    rw [args_neg s spec ka h]
    refine ⟨by simp, by simp, by simp, ?_⟩
    cases ka <;> simp

/-- C10, as stated, fails: a connection that answers both requests with the
cache-miss error makes `Script.Do` return a store `Error` whose text starts
with `"NOSCRIPT "`. -/
theorem Do_can_return_noscript :
    (demoScript.Do alwaysMissConn () [Arg.str "k"]).1.2 =
        some (GoError.Error "NOSCRIPT No matching script. Please use EVAL.")
      ∧ isNoScript (demoScript.Do alwaysMissConn () [Arg.str "k"]).1.2 = true := by
  constructor
  · simp [Script.Do, alwaysMissConn]
  · decide

/-- C10, amended. When `Script.Do` returns a store `Error` whose text starts
with `"NOSCRIPT "`, the `EVALSHA` request was a cache miss and the returned
result is that of the single `EVAL` fallback request, exactly two requests
having been issued; so the error of the `EVALSHA` request is never the one
returned, and `Do` returns no such error unless the `EVAL` request does. -/
theorem Do_noscript_only_from_eval {σ : Type} (s : Script) (c : Conn σ) (st : σ)
    (ka : List Arg) (log : List Request)
    (hret : isNoScript (s.Do c st ka).1.2 = true) :
    isNoScript (c st "EVALSHA" (s.args s.hash ka)).1.2 = true
      ∧ s.Do c st ka = c (c st "EVALSHA" (s.args s.hash ka)).2 "EVAL" (s.args s.src ka)
      ∧ isNoScript (c (c st "EVALSHA" (s.args s.hash ka)).2 "EVAL" (s.args s.src ka)).1.2 = true
      ∧ (s.Do (recording c) (st, log) ka).2.2 =
          log ++ [("EVALSHA", s.args s.hash ka), ("EVAL", s.args s.src ka)] := by
  by_cases hmiss : isNoScript (c st "EVALSHA" (s.args s.hash ka)).1.2 = true
  · have hdo : s.Do c st ka =
        c (c st "EVALSHA" (s.args s.hash ka)).2 "EVAL" (s.args s.src ka) := by
      simp [Script.Do, hmiss]
    refine ⟨hmiss, hdo, ?_, ?_⟩
    · rw [← hdo]; exact hret
    · simp [Script.Do, recording, hmiss]
  · exfalso
    have hdo : s.Do c st ka = c st "EVALSHA" (s.args s.hash ka) := by
      simp [Script.Do, hmiss]
    rw [hdo] at hret
    exact hmiss hret

/-- On the connection that always misses, the returned error is that of the
second request. -/
theorem Do_noscript_only_from_eval_witness :
    isNoScript (alwaysMissConn () "EVALSHA" (demoScript.args demoScript.hash [Arg.str "k"])).1.2
        = true
      ∧ (demoScript.Do (recording alwaysMissConn) ((), []) [Arg.str "k"]).2.2 =
          [] ++ [("EVALSHA", demoScript.args demoScript.hash [Arg.str "k"]),
            ("EVAL", demoScript.args demoScript.src [Arg.str "k"])] :=
  have h := Do_noscript_only_from_eval demoScript alwaysMissConn () [Arg.str "k"] []
    (by decide)
  ⟨h.1, h.2.2.2⟩

/-! ## Claims on the lock helpers, for any connection -/

/-- C6. Release is to report failures as an error value; the code does not:
on a transport error, and on a reply that is not an integer, `UnlockScript`
ends the process through `log.Fatal`, and whenever it does return, the error
it returns is nil. -/
theorem UnlockScript_aborts_on_failure :
    (UnlockScript downConn () "lock_key" "lock_val").1 =
        Outcome.fatal "write tcp 127.0.0.1:6379: broken pipe"
      ∧ (UnlockScript okConn () "lock_key" "lock_val").1 = Outcome.fatal "not int64"
      ∧ ∀ (σ : Type) (c : Conn σ) (st : σ) (key value : String) (ok : Bool) (err : GoError),
          (UnlockScript c st key value).1 ≠ Outcome.returned (ok, some err) := by
  refine ⟨?_, ?_, ?_⟩
  · simp [UnlockScript, Script.Do, downConn, isNoScript, GoError.text]
  · simp [UnlockScript, Script.Do, okConn, isNoScript]
  · intro σ c st key value ok err
    generalize hr : unlockScript.Do c st [Arg.str key, Arg.str value] = r
    obtain ⟨⟨reply, e⟩, st1⟩ := r
    cases e with
    | some e => simp [UnlockScript, hr]
    | none => cases reply <;> simp [UnlockScript, hr]

/-- C7. Acquire result mapping: `tryLock` returns `(true, nil)` exactly when
the request gave a string reply with no error; `(false, nil)` exactly on the
`ErrNil` outcome, which for a request without error is the nil reply; and
`(false, err)` with `err` non-nil in every other case. So `true` never comes
with an error, and a nil reply is never reported as an error. -/
theorem tryLock_result_mapping {σ : Type} (c : Conn σ) (st : σ) (key value : String) :
    ((tryLock c st key value).1 = (true, none) ↔
        ∃ s, (c st "SET" (lockRequest key value).2).1 = (Reply.str s, none))
      ∧ ((tryLock c st key value).1 = (false, none) ↔
        (redisString (c st "SET" (lockRequest key value).2).1).2 = some GoError.ErrNil)
      ∧ ((c st "SET" (lockRequest key value).2).1.2 = none →
        ((redisString (c st "SET" (lockRequest key value).2).1).2 = some GoError.ErrNil ↔
          (c st "SET" (lockRequest key value).2).1.1 = Reply.null))
      ∧ ((tryLock c st key value).1 ≠ (true, none) →
        (tryLock c st key value).1 ≠ (false, none) →
        ∃ err, (tryLock c st key value).1 = (false, some err) ∧ err ≠ GoError.ErrNil
          ∧ (redisString (c st "SET" (lockRequest key value).2).1).2 = some err)
      ∧ ((tryLock c st key value).1.1 = true → (tryLock c st key value).1.2 = none)
      ∧ (tryLock c st key value).2 = (c st "SET" (lockRequest key value).2).2 := by
  have hreq : (lockRequest key value).2 =
      [Arg.str key, Arg.str value, Arg.str "EX", Arg.int 30, Arg.str "NX"] := rfl
  rw [hreq]
  generalize hr : c st "SET"
    [Arg.str key, Arg.str value, Arg.str "EX", Arg.int 30, Arg.str "NX"] = r
  obtain ⟨⟨reply, err⟩, st1⟩ := r
  unfold tryLock
  rw [hr]
  cases err with
  | some e => cases e <;> simp [redisString]
  | none => cases reply <;> simp [redisString]

/-! ## Claims on the lock helpers, over the store -/

/-- C3. Safe release: when the value stored under the name is absent or differs
from the owner token, `UnlockScript` returns `(false, nil)` and the key space
is exactly as before. -/
theorem UnlockScript_safe_release (interp : Interp) (hlua : interp unlockSrc = unlockLua)
    (st : Store) (hc : CacheOk st) (name owner : String)
    (hne : ∀ e, st.kv.get name = some e → e.val ≠ owner) :
    (UnlockScript (storeConn interp) st name owner).1 = Outcome.returned (false, none)
      ∧ (UnlockScript (storeConn interp) st name owner).2.kv = st.kv := by
  obtain ⟨h1, h2, _⟩ := UnlockScript_store interp hlua st hc name owner
  have hv : ¬ (st.kv.get name).map Entry.val = some owner := by
    intro h
    cases hg : st.kv.get name with
    | none => simp [hg] at h
    | some e =>
      rw [hg] at h
      exact hne e hg (by simpa using h)
  rw [h1, h2]
  simp [hv]

/-- A release of `lk`, held by `v1`, with the token `v2`. -/
theorem UnlockScript_safe_release_witness :
    (UnlockScript (storeConn lockInterp) heldStore "lk" "v2").1 = Outcome.returned (false, none)
      ∧ (UnlockScript (storeConn lockInterp) heldStore "lk" "v2").2.kv = heldStore.kv :=
  UnlockScript_safe_release lockInterp lockInterp_unlock heldStore
    (by intro src h; simp [heldStore] at h) "lk" "v2"
    (by
      intro e h
      simp [heldStore, KV.get, List.lookup_cons] at h
      subst h
      decide)

/-- C9. Owner release: when the value stored under the name equals the owner
token, `UnlockScript` returns `(true, nil)`, the name is absent afterwards and
every other key is as before; and `UnlockScript` returns `released = true`
only in that case. -/
theorem UnlockScript_owner_release (interp : Interp) (hlua : interp unlockSrc = unlockLua)
    (st : Store) (hc : CacheOk st) (name owner : String) :
    (∀ e, st.kv.get name = some e → e.val = owner →
        (UnlockScript (storeConn interp) st name owner).1 = Outcome.returned (true, none)
          ∧ (UnlockScript (storeConn interp) st name owner).2.kv.get name = none
          ∧ ∀ k, k ≠ name →
              (UnlockScript (storeConn interp) st name owner).2.kv.get k = st.kv.get k)
      ∧ (∀ err, (UnlockScript (storeConn interp) st name owner).1 = Outcome.returned (true, err) →
          ∃ e, st.kv.get name = some e ∧ e.val = owner) := by
  obtain ⟨h1, h2, _⟩ := UnlockScript_store interp hlua st hc name owner
  constructor
  · intro e hg hval
    have hv : (st.kv.get name).map Entry.val = some owner := by simp [hg, hval]
    rw [h1, h2]
    simp only [hv, if_true, decide_True]
    exact ⟨trivial, get_del_self _ _, fun k hk => get_del_other _ _ _ hk⟩
  · intro err hret
    rw [h1] at hret
    have hv : (st.kv.get name).map Entry.val = some owner := by
      by_contra hv
      simp [hv] at hret
    cases hg : st.kv.get name with
    | none => simp [hg] at hv
    | some e => exact ⟨e, rfl, by simpa [hg] using hv⟩

/-- A release of `lk`, held by `v1`, with the token `v1`. -/
theorem UnlockScript_owner_release_witness :
    (UnlockScript (storeConn lockInterp) heldStore "lk" "v1").1 = Outcome.returned (true, none)
      ∧ (UnlockScript (storeConn lockInterp) heldStore "lk" "v1").2.kv.get "lk" = none
      ∧ ∀ k, k ≠ "lk" →
          (UnlockScript (storeConn lockInterp) heldStore "lk" "v1").2.kv.get k
            = heldStore.kv.get k :=
  (UnlockScript_owner_release lockInterp lockInterp_unlock heldStore
    (by intro src h; simp [heldStore] at h) "lk" "v1").1
    { val := "v1", ttl := some 30 } (by simp [heldStore, KV.get, List.lookup_cons]) rfl

/-- C4. Mutual exclusion: in any sequence of `tryLock` calls on one name, with
arbitrary owner tokens and nothing else happening, at most one call returns
`acquired = true`, none returns an error, and starting from a state in which
the name is absent the key is present afterwards exactly when one call
returned `true`. -/
theorem tryLock_mutual_exclusion (interp : Interp) (st : Store) (name : String)
    (owners : List String) :
    acquiredCount (tryLockAll (storeConn interp) st name owners).1 ≤ 1
      ∧ (∀ r ∈ (tryLockAll (storeConn interp) st name owners).1, r.2 = none)
      ∧ (st.kv.get name = none →
          (((tryLockAll (storeConn interp) st name owners).2.kv.get name).isSome = true ↔
            acquiredCount (tryLockAll (storeConn interp) st name owners).1 = 1)) := by
  cases hg : st.kv.get name with
  | some e =>
    have hheld : (st.kv.get name).isSome = true := by simp [hg]
    rw [tryLockAll_held interp st name owners hheld]
    refine ⟨?_, ?_, ?_⟩
    · rw [acquiredCount_all_false]
      exact Nat.zero_le 1
    · intro r hr
      obtain ⟨_, _, hr2⟩ := List.mem_map.mp hr
      rw [← hr2]
    · intro habs
      cases habs
  | none =>
    cases owners with
    | nil => simp [tryLockAll, acquiredCount, hg]
    | cons v vs =>
      rw [tryLockAll_free interp st name v vs hg]
      have hc : acquiredCount (((true, none) : Bool × Option GoError) ::
          vs.map (fun _ => (false, none))) = 1 := by
        have := acquiredCount_all_false vs
        simp [acquiredCount] at this ⊢
      rw [hc]
      simp [get_cons_self]

/-- C8. Lock/unlock scenario: from a state in which the name is absent, for two
distinct owner tokens, the calls `tryLock(name, v1)`, `tryLock(name, v2)`,
`UnlockScript(name, v2)`, `UnlockScript(name, v1)`, `tryLock(name, v2)` return
true, false, false, true, true, each with a nil error. -/
theorem lock_unlock_scenario (interp : Interp) (hlua : interp unlockSrc = unlockLua)
    (st : Store) (hc : CacheOk st) (name v1 v2 : String) (hne : v1 ≠ v2)
    (habs : st.kv.get name = none) :
    lockScenario (storeConn interp) st name v1 v2 =
      ((true, none), (false, none), Outcome.returned (false, none),
        Outcome.returned (true, none), (true, none)) := by
  have e1 := tryLock_store_free interp st name v1 habs
  generalize hs1 : ({ st with kv := (name, { val := v1, ttl := some 30 }) ::
    (st.kv.del name).1 } : Store) = s1 at e1
  have hc1 : CacheOk s1 := by subst hs1; exact hc
  have hg1 : s1.kv.get name = some { val := v1, ttl := some 30 } := by
    subst hs1; exact get_cons_self _ _ _
  have e2 := tryLock_store_held interp s1 name v2 (by simp [hg1])
  obtain ⟨a3, b3, c3⟩ := UnlockScript_store interp hlua s1 hc1 name v2
  have hv3 : ¬ (s1.kv.get name).map Entry.val = some v2 := by simpa [hg1] using hne
  simp only [hv3, if_false, decide_False] at a3 b3
  generalize hs3 : (UnlockScript (storeConn interp) s1 name v2).2 = s3 at a3 b3 c3
  have hg3 : s3.kv.get name = some { val := v1, ttl := some 30 } := by rw [b3]; exact hg1
  obtain ⟨a4, b4, c4⟩ := UnlockScript_store interp hlua s3 c3 name v1
  have hv4 : (s3.kv.get name).map Entry.val = some v1 := by simp [hg3]
  simp only [hv4, if_true, decide_True] at a4 b4
  generalize hs4 : (UnlockScript (storeConn interp) s3 name v1).2 = s4 at a4 b4 c4
  have hg4 : s4.kv.get name = none := by rw [b4]; exact get_del_self _ _
  have e5 := tryLock_store_free interp s4 name v2 hg4
  simp only [lockScenario, e1, e2, hs3, a3, hs4, a4, e5]

/-- The scenario on the empty store with `lk`, `v1`, `v2`. -/
theorem lock_unlock_scenario_witness :
    lockScenario (storeConn lockInterp) emptyStore "lk" "v1" "v2" =
      ((true, none), (false, none), Outcome.returned (false, none),
        Outcome.returned (true, none), (true, none)) :=
  lock_unlock_scenario lockInterp lockInterp_unlock emptyStore
    (by intro src h; simp [emptyStore] at h) "lk" "v1" "v2" (by decide) rfl

/-! ## Lemmas on the script hash -/

theorem beBytes_length (n x : Nat) : (beBytes n x).length = n := by
  induction n with
  | zero => rfl
  | succ n ih => simp [beBytes, ih]

theorem sha1_length (msg : List Nat) : (sha1 msg).length = 20 := by
  simp [sha1, beBytes_length]

theorem hexEncode_length (bs : List Nat) : (hexEncode bs).length = 2 * bs.length := by
  simp only [hexEncode, String.length]
  induction bs with
  | nil => rfl
  | cons b t ih =>
    simp only [List.flatMap_cons, List.length_append, List.length_cons, List.length_nil, ih]
    omega

theorem hexDigit_mem (n : Nat) : hexDigit n ∈ "0123456789abcdef".data := by
  unfold hexDigit
  by_cases h : n < 16
  · interval_cases n <;> decide
  · rw [List.getD_eq_default _ _ (by simpa using h)]
    decide

theorem hexEncode_chars (bs : List Nat) :
    ∀ ch ∈ (hexEncode bs).data, ch ∈ "0123456789abcdef".data := by
  intro ch hch
  simp only [hexEncode, List.mem_flatMap] at hch
  obtain ⟨b, _, hb⟩ := hch
  simp only [List.mem_cons, List.mem_singleton, List.not_mem_nil, or_false] at hb
  rcases hb with hb | hb <;> (rw [hb]; exact hexDigit_mem _)

set_option maxRecDepth 100000 in
theorem sha1_known_answers :
    (NewScript 2 "abc").Hash = "a9993e364706816aba3e25717850c26c9cd0d89d"
      ∧ (NewScript 0 "").Hash = "da39a3ee5e6b4b0d3255bfef95601890afd80709"
      ∧ (NewScript (-1) "return 1").Hash = "e0e1f9fabfc9d4800c877a703b823ac0578ff8db" := by
  decide

/-! ## Claims on the script hash and the send variants -/

/-- C12. Script identity: the hash of a script does not depend on the key
count; it is the lowercase hexadecimal encoding, 40 characters long, of the
20-byte SHA-1 digest of the source text, as the standard test values show. -/
theorem NewScript_hash_identity (k1 k2 : Int) (src : String) :
    (NewScript k1 src).Hash = (NewScript k2 src).Hash
      ∧ (NewScript k1 src).Hash = hexEncode (sha1 (strBytes src))
      ∧ (sha1 (strBytes src)).length = 20
      ∧ ((NewScript k1 src).Hash).length = 40
      ∧ (∀ ch ∈ ((NewScript k1 src).Hash).data, ch ∈ "0123456789abcdef".data)
      ∧ (NewScript 2 "abc").Hash = "a9993e364706816aba3e25717850c26c9cd0d89d"
      ∧ (NewScript 0 "").Hash = "da39a3ee5e6b4b0d3255bfef95601890afd80709"
      ∧ (NewScript (-1) "return 1").Hash = "e0e1f9fabfc9d4800c877a703b823ac0578ff8db" := by
  refine ⟨rfl, rfl, sha1_length _, ?_, ?_, sha1_known_answers⟩
  · show (hexEncode (sha1 (strBytes src))).length = 40
    rw [hexEncode_length, sha1_length]
  · exact hexEncode_chars _

/-- C13. The send variants build the requests of `Do`: `SendHash` hands the
sender exactly one request, the `EVALSHA` request that `Do` issues first, and
`Send` exactly one, the `EVAL` request that `Do` issues on a cache miss; each
returns the error of its one request, whatever that error is. -/
theorem Send_variants_same_requests {σ τ : Type} (s : Script) (send : Sender σ) (sst : σ)
    (c : Conn τ) (cst : τ) (ka : List Arg) (log : List Request) :
    s.SendHash (recordingSend send) (sst, log) ka =
        ((send sst "EVALSHA" (s.args s.hash ka)).1,
         ((send sst "EVALSHA" (s.args s.hash ka)).2, log ++ [("EVALSHA", s.args s.hash ka)]))
      ∧ s.Send (recordingSend send) (sst, log) ka =
        ((send sst "EVAL" (s.args s.src ka)).1,
         ((send sst "EVAL" (s.args s.src ka)).2, log ++ [("EVAL", s.args s.src ka)]))
      ∧ s.SendHash send sst ka = send sst "EVALSHA" (s.args s.hash ka)
      ∧ s.Send send sst ka = send sst "EVAL" (s.args s.src ka)
      ∧ (s.Do (recording c) (cst, log) ka).2.2 =
        (if isNoScript (c cst "EVALSHA" (s.args s.hash ka)).1.2 = true then
          log ++ [("EVALSHA", s.args s.hash ka), ("EVAL", s.args s.src ka)]
        else log ++ [("EVALSHA", s.args s.hash ka)]) := by
  refine ⟨rfl, rfl, rfl, rfl, ?_⟩
  by_cases h : isNoScript (c cst "EVALSHA" (s.args s.hash ka)).1.2 = true
  · simp [Script.Do, recording, h]
  · simp [Script.Do, recording, h]

/-! ## Claims on the lease and on a failed acquire -/

theorem tryLock_store_entries (interp : Interp) (st : Store) (name owner : String) :
    ∀ k e, (tryLock (storeConn interp) st name owner).2.kv.get k = some e →
      st.kv.get k = some e ∨ (k = name ∧ e = { val := owner, ttl := some 30 }) := by
  intro k e hk
  cases hg : st.kv.get name with
  | some e0 =>
    rw [tryLock_store_held interp st name owner (by simp [hg])] at hk
    exact Or.inl hk
  | none =>
    rw [tryLock_store_free interp st name owner hg] at hk
    by_cases hkn : k = name
    · subst hkn
      rw [get_cons_self] at hk
      exact Or.inr ⟨rfl, (Option.some.inj hk).symm⟩
    · rw [get_cons_other _ _ _ _ hkn, get_del_other _ _ _ hkn] at hk
      exact Or.inl hk

theorem tryLockSeq_entries (interp : Interp) (P : Entry → Prop)
    (hP : ∀ v, P { val := v, ttl := some 30 }) (calls : List (String × String)) :
    ∀ st : Store, (∀ k e, st.kv.get k = some e → P e) →
      ∀ k e, (tryLockSeq (storeConn interp) st calls).kv.get k = some e → P e := by
  induction calls with
  | nil => intro st h; exact h
  | cons p ps ih =>
    intro st h
    apply ih
    intro k e hk
    rcases tryLock_store_entries interp st p.1 p.2 k e hk with h1 | ⟨_, h2⟩
    · exact h k e h1
    · rw [h2]; exact hP _

/-- C14. Bounded lease: `tryLock` issues exactly one request, the conditional
write `SET name owner EX 30 NX`; over the store, an entry found after a call is
an entry that was there before or the one just written with an expiry of 30
seconds, so through any sequence of `tryLock` calls no entry is without an
expiry, and from the empty store every entry has the expiry of 30 seconds. -/
theorem tryLock_bounded_lease {σ : Type} (c : Conn σ) (cst : σ) (log : List Request)
    (interp : Interp) (st : Store) (name owner : String) (calls : List (String × String)) :
    (tryLock (recording c) (cst, log) name owner).2.2 =
        log ++ [("SET", [Arg.str name, Arg.str owner, Arg.str "EX", Arg.int 30, Arg.str "NX"])]
      ∧ ((tryLock (storeConn interp) st name owner).1 = (true, none) →
          (tryLock (storeConn interp) st name owner).2.kv.get name =
            some { val := owner, ttl := some 30 })
      ∧ (∀ k e, (tryLock (storeConn interp) st name owner).2.kv.get k = some e →
          st.kv.get k = some e ∨ (k = name ∧ e = { val := owner, ttl := some 30 }))
      ∧ (Leased st.kv → Leased (tryLockSeq (storeConn interp) st calls).kv)
      ∧ (∀ k e, (tryLockSeq (storeConn interp) emptyStore calls).kv.get k = some e →
          e.ttl = some 30) := by
  refine ⟨?_, ?_, tryLock_store_entries interp st name owner, ?_, ?_⟩
  · generalize hr : c cst "SET"
      [Arg.str name, Arg.str owner, Arg.str "EX", Arg.int 30, Arg.str "NX"] = r
    have hrec : recording c (cst, log) "SET"
        [Arg.str name, Arg.str owner, Arg.str "EX", Arg.int 30, Arg.str "NX"] =
        (r.1, (r.2, log ++ [("SET",
          [Arg.str name, Arg.str owner, Arg.str "EX", Arg.int 30, Arg.str "NX"])])) := by
      simp [recording, hr]
    unfold tryLock
    rw [hrec]
    simp only []
    split
    · rfl
    · split <;> rfl
  · intro hres
    cases hg : st.kv.get name with
    | some e0 =>
      rw [tryLock_store_held interp st name owner (by simp [hg])] at hres
      simp at hres
    | none =>
      rw [tryLock_store_free interp st name owner hg]
      exact get_cons_self _ _ _
  · intro hl
    exact tryLockSeq_entries interp (fun e => e.ttl.isSome = true) (fun _ => rfl) calls st hl
  · exact tryLockSeq_entries interp (fun e => e.ttl = some 30) (fun _ => rfl) calls emptyStore
      (by intro k e hk; simp [emptyStore, KV.get] at hk)

/-- C16. A failed acquire changes nothing: when the name is present in the
store, with any value and any remaining lease, `tryLock` with any owner token
returns `(false, nil)` and leaves the whole store as it was, so that the entry
under the name keeps its value and its expiry and every other key its entry. -/
theorem tryLock_failed_acquire_frame (interp : Interp) (st : Store) (name owner : String)
    (e : Entry) (hheld : st.kv.get name = some e) :
    tryLock (storeConn interp) st name owner = ((false, none), st)
      ∧ (tryLock (storeConn interp) st name owner).2.kv.get name = some e
      ∧ (∀ k, (tryLock (storeConn interp) st name owner).2.kv.get k = st.kv.get k)
      ∧ (tryLock (storeConn interp) st name owner).2.scripts = st.scripts := by
  have h := tryLock_store_held interp st name owner (by simp [hheld])
  rw [h]
  exact ⟨rfl, hheld, fun _ => rfl, rfl⟩

/-- A second token on `lk`, held by `v1` with 30 seconds left. -/
theorem tryLock_failed_acquire_frame_witness :
    tryLock (storeConn lockInterp) heldStore "lk" "v2" = ((false, none), heldStore)
      ∧ (tryLock (storeConn lockInterp) heldStore "lk" "v2").2.kv.get "lk" =
          some { val := "v1", ttl := some 30 } :=
  have h := tryLock_failed_acquire_frame lockInterp heldStore "lk" "v2"
    { val := "v1", ttl := some 30 } (by simp [heldStore, KV.get, List.lookup_cons])
  ⟨h.1, h.2.1⟩

/-! ## Lemmas on the script cache -/

theorem storeConn_ok (interp : Interp) (st : Store) (cmd : String) (args : List Arg)
    (h : ∀ t, (st.exec interp cmd args).1 ≠ Reply.error t) :
    storeConn interp st cmd args =
      (((st.exec interp cmd args).1, none), (st.exec interp cmd args).2) := by
  generalize hr : st.exec interp cmd args = r at h
  obtain ⟨reply, st1⟩ := r
  cases reply with
  | error t => exact absurd rfl (h t)
  | null => simp [storeConn, hr]
  | int n => simp [storeConn, hr]
  | str v => simp [storeConn, hr]
  | array items => simp [storeConn, hr]

theorem storeConn_not_miss (interp : Interp) (st : Store) (cmd : String) (args : List Arg)
    (h : ∀ t, (st.exec interp cmd args).1 = Reply.error t → HasPrefix t "NOSCRIPT " = false) :
    isNoScript (storeConn interp st cmd args).1.2 = false := by
  generalize hr : st.exec interp cmd args = r at h
  obtain ⟨reply, st1⟩ := r
  cases reply with
  | error t => simpa [storeConn, hr, isNoScript] using h t rfl
  | null => simp [storeConn, hr, isNoScript]
  | int n => simp [storeConn, hr, isNoScript]
  | str v => simp [storeConn, hr, isNoScript]
  | array items => simp [storeConn, hr, isNoScript]

theorem evalArgs_error_kind (rest : List Arg) (e : String)
    (h : evalArgs rest = Except.error e) : HasPrefix e "NOSCRIPT " = false := by
  cases rest with
  | nil =>
    simp only [evalArgs, Except.error.injEq] at h
    subst h
    decide
  | cons nk tl =>
    simp only [evalArgs] at h
    split at h
    · simp only [Except.error.injEq] at h
      subst h
      decide
    · split at h
      · simp only [Except.error.injEq] at h
        subst h
        decide
      · split at h
        · simp only [Except.error.injEq] at h
          subst h
          decide
        · cases h

theorem run_kind (interp : Interp) (hkind : NoFakeMiss interp) (st : Store) (src : String)
    (rest : List Arg) (t : String) (h : (st.run interp src rest).1 = Reply.error t) :
    HasPrefix t "NOSCRIPT " = false := by
  unfold Store.run at h
  cases he : evalArgs rest with
  | error e =>
    rw [he] at h
    simp only [Reply.error.injEq] at h
    subst h
    exact evalArgs_error_kind rest e he
  | ok ka =>
    rw [he] at h
    exact hkind _ _ _ _ _ h

theorem args_eq_cons (s : Script) (spec : String) (ka : List Arg) :
    s.args spec ka = Arg.str spec :: (s.args "" ka).tail := by
  by_cases h : s.keyCount < 0
  · simp [args_neg s _ ka h]
  · simp [args_nonneg s _ ka (by omega)]

theorem Do_recording (σ : Type) (s : Script) (c : Conn σ) (st : σ) (ka : List Arg)
    (log : List Request) :
    s.Do (recording c) (st, log) ka =
      if isNoScript (c st "EVALSHA" (s.args s.hash ka)).1.2 = true then
        ((c (c st "EVALSHA" (s.args s.hash ka)).2 "EVAL" (s.args s.src ka)).1,
         ((c (c st "EVALSHA" (s.args s.hash ka)).2 "EVAL" (s.args s.src ka)).2,
          log ++ [("EVALSHA", s.args s.hash ka), ("EVAL", s.args s.src ka)]))
      else
        ((c st "EVALSHA" (s.args s.hash ka)).1,
         ((c st "EVALSHA" (s.args s.hash ka)).2, log ++ [("EVALSHA", s.args s.hash ka)])) := by
  by_cases h : isNoScript (c st "EVALSHA" (s.args s.hash ka)).1.2 = true
  · simp [Script.Do, recording, h]
  · simp [Script.Do, recording, h]

theorem cache_contains (st : Store) (src : String) :
    ((st.cache src).scripts.lookup (hexEncode (sha1 (strBytes src)))).isSome = true := by
  simp only [Store.cache]
  split
  · assumption
  · simp [List.lookup_cons]

theorem cache_idem (st : Store) (src : String)
    (h : (st.scripts.lookup (hexEncode (sha1 (strBytes src)))).isSome = true) :
    st.cache src = st := by
  simp [Store.cache, h]

/-- With the source cached under its hash, `EVALSHA` of the hash and `EVAL` of
the source are served alike. -/
theorem exec_evalsha_eq_eval (interp : Interp) (st : Store) (src : String) (rest : List Arg)
    (h : st.scripts.lookup (hexEncode (sha1 (strBytes src))) = some src) :
    st.exec interp "EVALSHA" (Arg.str (hexEncode (sha1 (strBytes src))) :: rest) =
      st.exec interp "EVAL" (Arg.str src :: rest) := by
  rw [exec_evalsha, h]
  cases he : evalArgs rest with
  | error e => simp [Store.exec, Store.run, he]
  | ok ka =>
    rw [exec_eval interp st src rest ka he, cache_idem st src (by simp [h])]

/-- A cached hash is never answered with the cache-miss error. -/
theorem storeConn_cached_not_miss (interp : Interp) (hkind : NoFakeMiss interp) (st : Store)
    (h : String) (rest : List Arg) (hc : (st.scripts.lookup h).isSome = true) :
    isNoScript (storeConn interp st "EVALSHA" (Arg.str h :: rest)).1.2 = false := by
  apply storeConn_not_miss
  intro t ht
  rw [exec_evalsha] at ht
  cases hl : st.scripts.lookup h with
  | none => simp [hl] at hc
  | some src =>
    rw [hl] at ht
    exact run_kind interp hkind st src rest t ht

theorem lockInterp_kind : NoFakeMiss lockInterp := by
  intro src keys argv kv t h
  unfold lockInterp at h
  split at h
  · have ht : t = "ERR Lua redis() command arguments must be strings or integers" := by
      simp only [unlockLua] at h
      generalize luaIndex keys 1 = key at h
      cases key with
      | str k =>
        simp only [] at h
        split at h <;> cases h
      | nil => simpa using h.symm
      | false => simpa using h.symm
      | num n => simpa using h.symm
    subst ht
    decide
  · simp only [Reply.error.injEq] at h
    subst h
    decide

theorem storeConn_evalsha_empty (interp : Interp) (st : Store) (hempty : st.scripts = [])
    (h : String) (rest : List Arg) :
    storeConn interp st "EVALSHA" (Arg.str h :: rest) =
      ((Reply.null, some (GoError.Error "NOSCRIPT No matching script. Please use EVAL.")),
        st) := by
  simp [storeConn, exec_evalsha, hempty]

theorem storeConn_eval_empty (interp : Interp) (st : Store) (hempty : st.scripts = [])
    (src : String) (rest : List Arg) (keys argv : List String)
    (hacc : evalArgs rest = Except.ok (keys, argv))
    (hok : ∀ t, (interp src keys argv st.kv).1 ≠ Reply.error t) :
    storeConn interp st "EVAL" (Arg.str src :: rest) =
      (((interp src keys argv st.kv).1, none),
       { kv := (interp src keys argv st.kv).2,
         scripts := [(hexEncode (sha1 (strBytes src)), src)] }) := by
  have hexec : st.exec interp "EVAL" (Arg.str src :: rest) =
      ((interp src keys argv st.kv).1,
       { kv := (interp src keys argv st.kv).2,
         scripts := [(hexEncode (sha1 (strBytes src)), src)] }) := by
    rw [exec_eval interp st src rest _ hacc]
    simp [Store.run, hacc, Store.cache, hempty]
  rw [storeConn_ok interp st "EVAL" _ (by rw [hexec]; exact hok), hexec]

/-- `Script.Do` against a store with an empty script cache, for an argument
list the store accepts and an evaluation that is not an error reply. -/
theorem Do_store_empty (interp : Interp) (k : Int) (src : String) (ka : List Arg) (st : Store)
    (keys argv : List String) (hempty : st.scripts = [])
    (hacc : evalArgs ((NewScript k src).args src ka).tail = Except.ok (keys, argv))
    (hok : ∀ t, (interp src keys argv st.kv).1 ≠ Reply.error t) :
    isNoScript (storeConn interp st "EVALSHA"
        ((NewScript k src).args (NewScript k src).hash ka)).1.2 = true
      ∧ storeConn interp (storeConn interp st "EVALSHA"
          ((NewScript k src).args (NewScript k src).hash ka)).2 "EVAL"
          ((NewScript k src).args (NewScript k src).src ka) =
        (((interp src keys argv st.kv).1, none),
         { kv := (interp src keys argv st.kv).2,
           scripts := [((NewScript k src).Hash, src)] }) := by
  have hsrc : (NewScript k src).src = src := rfl
  have hacc2 : evalArgs ((NewScript k src).args "" ka).tail = Except.ok (keys, argv) := by
    rw [args_tail _ "" src]; exact hacc
  rw [hsrc, args_eq_cons _ (NewScript k src).hash, args_eq_cons _ src,
    storeConn_evalsha_empty interp st hempty]
  have hmiss : isNoScript
      (some (GoError.Error "NOSCRIPT No matching script. Please use EVAL.")) = true := by
    decide
  refine ⟨hmiss, ?_⟩
  exact storeConn_eval_empty interp st hempty src _ keys argv hacc2 hok

theorem storeConn_evalsha_eq_eval (interp : Interp) (st : Store) (src : String)
    (rest : List Arg) (h : st.scripts.lookup (hexEncode (sha1 (strBytes src))) = some src) :
    storeConn interp st "EVALSHA" (Arg.str (hexEncode (sha1 (strBytes src))) :: rest) =
      storeConn interp st "EVAL" (Arg.str src :: rest) := by
  unfold storeConn
  rw [exec_evalsha_eq_eval interp st src rest h]

/-- With the hash of a script in the cache, `Script.Do` issues the `EVALSHA`
request only. -/
theorem Do_store_cached (interp : Interp) (hkind : NoFakeMiss interp) (s : Script) (st : Store)
    (ka : List Arg) (log : List Request) (hc : (st.scripts.lookup s.hash).isSome = true) :
    s.Do (recording (storeConn interp)) (st, log) ka =
      ((storeConn interp st "EVALSHA" (s.args s.hash ka)).1,
       ((storeConn interp st "EVALSHA" (s.args s.hash ka)).2,
        log ++ [("EVALSHA", s.args s.hash ka)])) := by
  have hmiss : isNoScript (storeConn interp st "EVALSHA" (s.args s.hash ka)).1.2 = false := by
    rw [args_eq_cons]
    exact storeConn_cached_not_miss interp hkind st s.hash _ hc
  rw [Do_recording, hmiss]
  simp

/-! ## Claims on the script cache -/

/-- C11, as stated, fails: against a store with an empty script cache, the
unlock script invoked without its two keys is refused by the store, so that
`Script.Do` returns an error and the cache stays empty; and the unlock text
invoked with a key count of zero evaluates to an error reply, which `Do`
returns as an error. -/
theorem Do_empty_cache_can_fail :
    (unlockScript.Do (storeConn lockInterp) emptyStore []).1 =
        (Reply.null, some (GoError.Error
          "ERR Number of keys can\x27t be greater than number of args"))
      ∧ (unlockScript.Do (storeConn lockInterp) emptyStore []).2.scripts = []
      ∧ ((NewScript (-1) unlockSrc).Do (storeConn lockInterp) emptyStore [Arg.int 0]).1 =
        (Reply.null, some (GoError.Error
          "ERR Lua redis() command arguments must be strings or integers")) := by
  have hmiss : isNoScript
      (some (GoError.Error "NOSCRIPT No matching script. Please use EVAL.")) = true := by
    decide
  have ha : ∀ spec, unlockScript.args spec [] = [Arg.str spec, Arg.int 2] :=
    fun spec => args_nonneg unlockScript spec [] (by decide)
  have hb : ∀ spec, (NewScript (-1) unlockSrc).args spec [Arg.int 0] =
      [Arg.str spec, Arg.int 0] :=
    fun spec => args_neg (NewScript (-1) unlockSrc) spec [Arg.int 0] (by decide)
  have hsrc : unlockScript.src = unlockSrc := rfl
  have hsrc2 : (NewScript (-1) unlockSrc).src = unlockSrc := rfl
  have h1 : ∀ h rest, storeConn lockInterp emptyStore "EVALSHA" (Arg.str h :: rest) =
      ((Reply.null, some (GoError.Error "NOSCRIPT No matching script. Please use EVAL.")),
        emptyStore) :=
    fun h rest => storeConn_evalsha_empty lockInterp emptyStore rfl h rest
  have h2 : storeConn lockInterp emptyStore "EVAL" [Arg.str unlockSrc, Arg.int 2] =
      ((Reply.null, some (GoError.Error
        "ERR Number of keys can\x27t be greater than number of args")), emptyStore) := by
    simp [storeConn, Store.exec, evalArgs, Arg.toInt?, Arg.wire]
  have h3 : (storeConn lockInterp emptyStore "EVAL" [Arg.str unlockSrc, Arg.int 0]).1 =
      (Reply.null, some (GoError.Error
        "ERR Lua redis() command arguments must be strings or integers")) := by
    have he : evalArgs [Arg.int 0] = Except.ok ([], []) := by
      simp [evalArgs, Arg.toInt?]
    simp [storeConn, exec_eval lockInterp emptyStore unlockSrc [Arg.int 0] _ he, Store.run, he,
      lockInterp, unlockLua, luaIndex]
  refine ⟨?_, ?_, ?_⟩
  · simp only [Script.Do, ha, hsrc, h1, hmiss, if_true, h2]
  · simp only [Script.Do, ha, hsrc, h1, hmiss, if_true, h2]
    rfl
  · simp only [Script.Do, hb, hsrc2, h1, hmiss, if_true, h3]

/-- C11, amended. Against a store with an empty script cache, for a script
built by `NewScript`, an argument list the store accepts for its key count and
an evaluation that is not an error reply: `Script.Do` issues `EVALSHA` and then
`EVAL`, returns the evaluation result with a nil error, and leaves the source
cached under `Hash()`; the next `Do` on that store, with any argument list,
issues the `EVALSHA` request only and returns what `EVAL` would return. -/
theorem Do_warms_cache (interp : Interp) (hkind : NoFakeMiss interp) (k : Int) (src : String)
    (ka : List Arg) (st : Store) (log : List Request) (keys argv : List String)
    (hempty : st.scripts = [])
    (hacc : evalArgs ((NewScript k src).args src ka).tail = Except.ok (keys, argv))
    (hok : ∀ t, (interp src keys argv st.kv).1 ≠ Reply.error t) :
    (NewScript k src).Do (recording (storeConn interp)) (st, log) ka =
        (((interp src keys argv st.kv).1, none),
         ({ kv := (interp src keys argv st.kv).2,
            scripts := [((NewScript k src).Hash, src)] },
          log ++ [("EVALSHA", (NewScript k src).args (NewScript k src).hash ka),
            ("EVAL", (NewScript k src).args (NewScript k src).src ka)]))
      ∧ (NewScript k src).Do (storeConn interp) st ka =
        (((interp src keys argv st.kv).1, none),
         { kv := (interp src keys argv st.kv).2,
           scripts := [((NewScript k src).Hash, src)] })
      ∧ ((NewScript k src).Do (storeConn interp) st ka).2.scripts.lookup
          (NewScript k src).Hash = some src
      ∧ ∀ (ka2 : List Arg) (log2 : List Request),
          (NewScript k src).Do (recording (storeConn interp))
              (((NewScript k src).Do (storeConn interp) st ka).2, log2) ka2 =
            ((storeConn interp ((NewScript k src).Do (storeConn interp) st ka).2 "EVAL"
                ((NewScript k src).args (NewScript k src).src ka2)).1,
             ((storeConn interp ((NewScript k src).Do (storeConn interp) st ka).2 "EVAL"
                ((NewScript k src).args (NewScript k src).src ka2)).2,
              log2 ++ [("EVALSHA", (NewScript k src).args (NewScript k src).hash ka2)])) := by
  obtain ⟨hmiss, heval⟩ := Do_store_empty interp k src ka st keys argv hempty hacc hok
  have hplain : (NewScript k src).Do (storeConn interp) st ka =
      (((interp src keys argv st.kv).1, none),
       { kv := (interp src keys argv st.kv).2,
         scripts := [((NewScript k src).Hash, src)] }) := by
    simp only [Script.Do, hmiss, if_true, heval]
  have hlook : List.lookup (NewScript k src).Hash [((NewScript k src).Hash, src)] = some src := by
    simp [List.lookup_cons]
  refine ⟨?_, hplain, ?_, ?_⟩
  · rw [Do_recording, hmiss, heval]
    simp
  · rw [hplain]
    exact hlook
  · intro ka2 log2
    rw [hplain]
    have hsrc : (NewScript k src).src = src := rfl
    have hh : (NewScript k src).hash = hexEncode (sha1 (strBytes src)) := rfl
    have hc : (List.lookup (NewScript k src).hash
        ({ kv := (interp src keys argv st.kv).2,
           scripts := [((NewScript k src).Hash, src)] } : Store).scripts).isSome = true := by
      show (List.lookup (NewScript k src).Hash [((NewScript k src).Hash, src)]).isSome = true
      rw [hlook]; rfl
    rw [Do_store_cached interp hkind (NewScript k src) _ ka2 log2 hc]
    have heq : storeConn interp
        ({ kv := (interp src keys argv st.kv).2,
           scripts := [((NewScript k src).Hash, src)] } : Store) "EVALSHA"
        ((NewScript k src).args (NewScript k src).hash ka2) =
        storeConn interp
        ({ kv := (interp src keys argv st.kv).2,
           scripts := [((NewScript k src).Hash, src)] } : Store) "EVAL"
        ((NewScript k src).args (NewScript k src).src ka2) := by
      rw [hsrc, args_eq_cons _ (NewScript k src).hash, args_eq_cons _ src, hh]
      exact storeConn_evalsha_eq_eval interp _ src _ hlook
    rw [heq]

/-- The unlock script on the empty store, with its two keys: the reply 0, and
the source cached under the hash afterwards. -/
theorem Do_warms_cache_witness :
    (NewScript 2 unlockSrc).Do (storeConn lockInterp) emptyStore
        [Arg.str "lk", Arg.str "v1"] =
        (((lockInterp unlockSrc ["lk", "v1"] [] emptyStore.kv).1, none),
         { kv := (lockInterp unlockSrc ["lk", "v1"] [] emptyStore.kv).2,
           scripts := [((NewScript 2 unlockSrc).Hash, unlockSrc)] })
      ∧ ((NewScript 2 unlockSrc).Do (storeConn lockInterp) emptyStore
          [Arg.str "lk", Arg.str "v1"]).2.scripts.lookup (NewScript 2 unlockSrc).Hash =
            some unlockSrc
      ∧ (lockInterp unlockSrc ["lk", "v1"] [] emptyStore.kv).1 = Reply.int 0 :=
  have hval : (lockInterp unlockSrc ["lk", "v1"] [] emptyStore.kv).1 = Reply.int 0 := by
    rw [lockInterp_unlock, unlockLua_pair]
    simp [emptyStore, KV.get]
  have h := Do_warms_cache lockInterp lockInterp_kind 2 unlockSrc
    [Arg.str "lk", Arg.str "v1"] emptyStore [] ["lk", "v1"] [] rfl
    (by
      rw [args_nonneg _ _ _ (by decide)]
      exact evalArgs_pair "lk" "v1")
    (by
      intro t ht
      rw [hval] at ht
      cases ht)
  ⟨h.2.1, h.2.2.1, hval⟩

theorem Load_store (interp : Interp) (k : Int) (src : String) (st : Store) :
    (NewScript k src).Load (storeConn interp) st = (none, st.cache src) := by
  simp [Script.Load, storeConn, Store.exec, NewScript, Arg.wire]

/-- C15, as stated, fails: for a script whose evaluation is itself an error
reply starting with `"NOSCRIPT "`, `Load` returns nil and the cache holds
`Hash()`, yet the following `Script.Do` issues `EVALSHA` and then `EVAL`. -/
theorem Load_then_Do_can_fall_back :
    ((NewScript 0 fakeMissSrc).Load (storeConn fakeMissInterp) emptyStore).1 = none
      ∧ (((NewScript 0 fakeMissSrc).Load (storeConn fakeMissInterp) emptyStore).2.scripts.lookup
          (NewScript 0 fakeMissSrc).Hash).isSome = true
      ∧ ((NewScript 0 fakeMissSrc).Do (recording (storeConn fakeMissInterp))
          (((NewScript 0 fakeMissSrc).Load (storeConn fakeMissInterp) emptyStore).2, []) []).2.2 =
        [("EVALSHA", (NewScript 0 fakeMissSrc).args (NewScript 0 fakeMissSrc).hash []),
         ("EVAL", (NewScript 0 fakeMissSrc).args (NewScript 0 fakeMissSrc).src [])] := by
  have hmiss : isNoScript (some (GoError.Error "NOSCRIPT fake")) = true := by decide
  have hargs : ∀ spec, (NewScript 0 fakeMissSrc).args spec [] = [Arg.str spec, Arg.int 0] :=
    fun spec => args_nonneg (NewScript 0 fakeMissSrc) spec [] (by decide)
  have hlook : (List.lookup (hexEncode (sha1 (strBytes fakeMissSrc)))
      (emptyStore.cache fakeMissSrc).scripts) = some fakeMissSrc := by
    simp [Store.cache, emptyStore, List.lookup_cons]
  have hsha : (storeConn fakeMissInterp (emptyStore.cache fakeMissSrc) "EVALSHA"
      [Arg.str (hexEncode (sha1 (strBytes fakeMissSrc))), Arg.int 0]).1 =
      (Reply.null, some (GoError.Error "NOSCRIPT fake")) := by
    have he : evalArgs [Arg.int 0] = Except.ok ([], []) := by
      simp [evalArgs, Arg.toInt?]
    simp [storeConn, exec_evalsha, hlook, Store.run, he, fakeMissInterp]
  have hh : (NewScript 0 fakeMissSrc).hash = hexEncode (sha1 (strBytes fakeMissSrc)) := rfl
  rw [Load_store]
  refine ⟨rfl, cache_contains emptyStore fakeMissSrc, ?_⟩
  rw [Do_recording, hargs, hargs, hh, hsha]
  simp only [hmiss, if_true, List.nil_append]

/-- C15, amended. `Load` pre-warms the cache without evaluating: on any
connection it issues exactly one request, `SCRIPT LOAD src`, and returns that
request's error, the reply being dropped; over the store it returns nil, the
key space is unchanged and the outcome is the same whatever the scripts would
evaluate to, and the cache holds `Hash()`; when no script evaluates to an
error reply that starts with `"NOSCRIPT "`, a following `Script.Do` issues the
`EVALSHA` request only. -/
theorem Load_prewarms_cache {σ : Type} (c : Conn σ) (cst : σ) (log log2 : List Request)
    (s : Script) (interp : Interp) (st : Store) (k : Int) (src : String) (ka : List Arg) :
    s.Load (recording c) (cst, log) =
        ((c cst "SCRIPT" [Arg.str "LOAD", Arg.str s.src]).1.2,
         ((c cst "SCRIPT" [Arg.str "LOAD", Arg.str s.src]).2,
          log ++ [("SCRIPT", [Arg.str "LOAD", Arg.str s.src])]))
      ∧ s.Load c cst =
        ((c cst "SCRIPT" [Arg.str "LOAD", Arg.str s.src]).1.2,
         (c cst "SCRIPT" [Arg.str "LOAD", Arg.str s.src]).2)
      ∧ ((NewScript k src).Load (storeConn interp) st).1 = none
      ∧ ((NewScript k src).Load (storeConn interp) st).2.kv = st.kv
      ∧ (((NewScript k src).Load (storeConn interp) st).2.scripts.lookup
          (NewScript k src).Hash).isSome = true
      ∧ (∀ interp2 : Interp, (NewScript k src).Load (storeConn interp2) st =
          (NewScript k src).Load (storeConn interp) st)
      ∧ (NoFakeMiss interp →
          (NewScript k src).Do (recording (storeConn interp))
            (((NewScript k src).Load (storeConn interp) st).2, log2) ka =
          ((storeConn interp ((NewScript k src).Load (storeConn interp) st).2 "EVALSHA"
              ((NewScript k src).args (NewScript k src).hash ka)).1,
           ((storeConn interp ((NewScript k src).Load (storeConn interp) st).2 "EVALSHA"
              ((NewScript k src).args (NewScript k src).hash ka)).2,
            log2 ++ [("EVALSHA", (NewScript k src).args (NewScript k src).hash ka)]))) := by
  have hload : ∀ i : Interp, (NewScript k src).Load (storeConn i) st = (none, st.cache src) :=
    fun i => Load_store i k src st
  have hc : ((st.cache src).scripts.lookup (NewScript k src).Hash).isSome = true :=
    cache_contains st src
  refine ⟨rfl, rfl, ?_, ?_, ?_, ?_, ?_⟩
  · rw [hload]
  · rw [hload]; exact cache_kv st src
  · rw [hload]; exact hc
  · intro interp2
    rw [hload, hload]
  · intro hkind
    rw [hload]
    exact Do_store_cached interp hkind (NewScript k src) _ ka log2 hc

/-- The unlock script loaded into the empty store: no error, the key space as
before, the hash cached, and one request from the `Do` that follows. -/
theorem Load_prewarms_cache_witness :
    NoFakeMiss lockInterp
      ∧ ((NewScript 2 unlockSrc).Load (storeConn lockInterp) emptyStore).1 = none
      ∧ ((NewScript 2 unlockSrc).Load (storeConn lockInterp) emptyStore).2.kv = emptyStore.kv
      ∧ (((NewScript 2 unlockSrc).Load (storeConn lockInterp) emptyStore).2.scripts.lookup
          (NewScript 2 unlockSrc).Hash).isSome = true
      ∧ ((NewScript 2 unlockSrc).Do (recording (storeConn lockInterp))
          (((NewScript 2 unlockSrc).Load (storeConn lockInterp) emptyStore).2, [])
          [Arg.str "lk", Arg.str "v1"]).2.2 =
        [] ++ [("EVALSHA", (NewScript 2 unlockSrc).args (NewScript 2 unlockSrc).hash
          [Arg.str "lk", Arg.str "v1"])] :=
  have h := Load_prewarms_cache missConn 0 [] [] demoScript lockInterp
    emptyStore 2 unlockSrc [Arg.str "lk", Arg.str "v1"]
  ⟨lockInterp_kind, h.2.2.1, h.2.2.2.1, h.2.2.2.2.1,
    congrArg (fun r => r.2.2) (h.2.2.2.2.2.2 lockInterp_kind)⟩

end Redigo
